import Mathlib

/-!
# s3benchmark: the run engine of `Benchmark.cpp`

A shallow embedding of `src/lib/src/Benchmark.cpp`:

* `random_range_in` (the byte-range selector),
* `do_run` (plan construction, the worker threads under an interleaving
  scheduler, the results buffer),
* `run_full_benchmark` (the two doubling loops of the sweep).

`size_t` values are natural numbers reduced modulo `2 ^ 64`, `unsigned`
counters are reduced modulo `2 ^ 32`, and the `int` counter of the plan loop
is undefined past `INT_MAX`.  Loops that the source does not bound are run on
fuel: `none` means the fuel ran out.
-/

namespace s3benchmark

/-! ## Machine integers -/

/-- Modulus of `size_t` on the 64-bit targets of the benchmark. -/
def SIZE_MOD : Nat := 2 ^ 64

/-- Modulus of `unsigned`. -/
def UINT_MOD : Nat := 2 ^ 32

/-- Largest value of `int`. -/
def INT_MAX : Nat := 2 ^ 31 - 1

/-! ## Data model (`Types.hpp`, `Config.hpp`: the fields that `Benchmark.cpp` uses) -/

/-- Modelled from the spec: `ByteRange` of `Types.hpp`, two unsigned integers
`{offset, end}` built by `random_range_in` as `{ offset, offset + size }`. -/
structure ByteRange where
  offset : Nat
  end_ : Nat
  deriving DecidableEq, Repr

/-- Modelled from the spec: `RunParameters` of `Types.hpp`, brace-initialised in
`run_full_benchmark` as `{ config.samples, 1, 0 }`: sample count, thread
count, payload size. -/
structure RunParameters where
  sample_count : Nat
  thread_count : Nat
  payload_size : Nat
  deriving DecidableEq, Repr

/-- Modelled from the spec: `RunResults` of `Types.hpp`, returned by `do_run` as
`{ results, total duration in ms }`. -/
structure RunResults where
  latencies : List Nat
  total_duration_ms : Nat
  deriving DecidableEq, Repr

/-- The fields of `Config` that `Benchmark.cpp` reads. -/
structure Config where
  bucket_name : String
  object_name : String
  fetch_benchmark : Bool
  samples : Nat
  payloads_min : Nat
  payloads_max : Nat
  threads_min : Nat
  threads_max : Nat
  deriving DecidableEq, Repr

/-- The exceptions thrown in `Benchmark.cpp`: `std::runtime_error` with its message. -/
inductive Exception where
  | runtime_error (what : String)
  deriving DecidableEq, Repr

/-! ## The random source -/

/-- The process-wide random source behind `random::in_range`.  `pick n lo hi` is
the value handed out at the `n`-th request when it asks for `[lo, hi]`;
`requests` logs every request made so far. -/
structure RandomSource where
  pick : Nat → Nat → Nat → Nat
  requests : List (Nat × Nat)

/-- The call `random::in_range<size_t>(lo, hi)`: the drawn value and the source
after the call. -/
def random.in_range (g : RandomSource) (lo hi : Nat) : Nat × RandomSource :=
  (g.pick g.requests.length lo hi, { g with requests := g.requests ++ [(lo, hi)] })

/-- The contract assumed of `random::in_range`: a request for `[lo, hi]` is
answered inside `[lo, hi]`. -/
def RandomSource.InRange (g : RandomSource) : Prop :=
  ∀ n lo hi, lo ≤ hi → lo ≤ g.pick n lo hi ∧ g.pick n lo hi ≤ hi

/-! ## `Benchmark::random_range_in` -/

/-- The message of the exception of `random_range_in`. -/
def range_error : Exception :=
  .runtime_error "Cannot create byte range larger than max size."

/-- The method `Benchmark::random_range_in(size, max_value)`: the thrown exception or the
returned range, together with the random source as the call leaves it. -/
def random_range_in (g : RandomSource) (size max_value : Nat) :
    Except Exception ByteRange × RandomSource :=
  if size > max_value then
    (.error range_error, g)
  else
    let r := random.in_range g 0 ((max_value - size) % SIZE_MOD)
    (.ok { offset := r.1, end_ := (r.1 + size) % SIZE_MOD }, r.2)

/-! ## The request plan of `do_run` -/

/-- A pre-built request closure of the plan (`S3Op`): the request it captured.
A range GET carries its byte range, a PUT carries its object key and the length
handed to `make_body`. -/
inductive S3Op where
  | GetObject (bucket key : String) (range : ByteRange)
  | PutObject (bucket key : String) (body_length : Nat)
  deriving DecidableEq, Repr

/-- The call `std::to_string(i)` on the non-negative loop counter: its decimal rendering. -/
def to_string (i : Nat) : String := Nat.repr i

/-- The key of the `i`-th PUT: `config.object_name + std::to_string(i)`. -/
def object_key (cfg : Config) (i : Nat) : String := cfg.object_name ++ to_string i

/-- The plan loop of `do_run`,
`for (int i = 0; i < params.sample_count * params.thread_count; ++i)`, from
counter `i` on with `requests` built so far.  The result is the plan or the
exception that ended the loop, with the random source as the loop leaves it;
`none` when the fuel runs out or `++i` overflows `int` (undefined). -/
def build_plan (cfg : Config) (params : RunParameters) (max_obj_size : Nat) :
    Nat → Nat → List S3Op → RandomSource → Option (Except Exception (List S3Op) × RandomSource)
  | 0, _, _, _ => none
  | fuel + 1, i, requests, g =>
    if i < (params.sample_count * params.thread_count) % SIZE_MOD then
      if cfg.fetch_benchmark then
        match random_range_in g params.payload_size max_obj_size with
        | (.error e, g1) => some (.error e, g1)
        | (.ok range, g1) =>
          if i + 1 > INT_MAX then none
          else build_plan cfg params max_obj_size fuel (i + 1)
            (requests ++ [.GetObject cfg.bucket_name cfg.object_name range]) g1
      else
        if i + 1 > INT_MAX then none
        else build_plan cfg params max_obj_size fuel (i + 1)
          (requests ++ [.PutObject cfg.bucket_name (object_key cfg i) params.payload_size]) g
    else some (.ok requests, g)

/-! ## The worker threads of `do_run` -/

/-- One atomic step of a worker's lambda. -/
inductive Action where
  /-- One test of `while (!do_start) { }`. -/
  | spin
  /-- The assignment `do_start = true`. -/
  | release
  /-- The assignment `start_time = tsctime::ReadTSC()`. -/
  | capture_start
  /-- The read `auto start = tsctime::ReadTSC()`. -/
  | read_start
  /-- The call `requests[k](client)`. -/
  | invoke (k : Nat)
  /-- The read `auto end = tsctime::ReadTSC()`. -/
  | read_end
  /-- The write `results[k] = tsctime::TscDifferenceUs(start, end)`. -/
  | store (k : Nat)
  deriving DecidableEq, Repr

/-- The timed loop of a worker, `for (unsigned i = 0; i < params.sample_count; ++i)`,
from counter `i` on: the steps it performs, `none` when the fuel runs out. -/
def worker_loop (sample_count idx_start : Nat) : Nat → Nat → Option (List Action)
  | 0, _ => none
  | fuel + 1, i =>
    if i < sample_count then
      match worker_loop sample_count idx_start fuel ((i + 1) % UINT_MOD) with
      | none => none
      | some rest =>
        some ([.read_start, .invoke ((idx_start + i) % SIZE_MOD), .read_end,
          .store ((idx_start + i) % SIZE_MOD)] ++ rest)
    else some []

/-- The lambda run by the thread `t_id`: the start barrier, then the timed loop. -/
def worker (params : RunParameters) (fuel t_id : Nat) : Option (List Action) :=
  let idx_start := (params.sample_count * t_id) % SIZE_MOD
  let barrier : List Action :=
    if t_id ≠ (params.thread_count + SIZE_MOD - 1) % SIZE_MOD then [.spin]
    else [.release, .capture_start]
  match worker_loop params.sample_count idx_start fuel 0 with
  | none => none
  | some body => some (barrier ++ body)

/-- The spawn loop of `do_run`, `for (unsigned t_id = 0; t_id != params.thread_count; ++t_id)`,
from `t_id` on: the thread ids in spawn order, `none` when the fuel runs out. -/
def spawn_loop (thread_count : Nat) : Nat → Nat → Option (List Nat)
  | 0, _ => none
  | fuel + 1, t_id =>
    if t_id ≠ thread_count then
      match spawn_loop thread_count fuel ((t_id + 1) % UINT_MOD) with
      | none => none
      | some rest => some (t_id :: rest)
    else some []

/-- What an execution of the threads of `do_run` shows, in the order it happens. -/
inductive Event where
  | spawn (t_id : Nat)
  | pass_barrier (t_id : Nat)
  | release (t_id : Nat)
  | capture_start (t_id tsc : Nat)
  | read_start (t_id tsc : Nat)
  | invoke (t_id k : Nat) (op : S3Op)
  | read_end (t_id tsc : Nat)
  | store (t_id k latency : Nat)
  deriving DecidableEq, Repr

/-- A spawned worker: its id, the steps it has left, its locals `start` and `end`. -/
structure Thread where
  t_id : Nat
  code : List Action
  start : Nat
  end_ : Nat
  deriving DecidableEq, Repr

/-- The state shared by the main thread and the workers during a run. -/
structure Machine where
  /-- The workers the spawn loop has still to create, in order. -/
  to_spawn : List Thread
  /-- The workers created so far, in spawn order. -/
  threads : List Thread
  do_start : Bool
  start_time : Nat
  /-- The cycle counter: every `ReadTSC` returns it and advances it. -/
  tsc : Nat
  results : List Nat
  trace : List Event
  deriving DecidableEq, Repr

/-- The collaborators of `do_run` outside `Benchmark.cpp`. -/
structure Env where
  /-- The content length answered by `HeadObject`, `none` when the request fails. -/
  head_object : Option Nat
  /-- The function `tsctime::TscDifferenceUs` of `Time.hpp`. -/
  TscDifferenceUs : Nat → Nat → Nat
  /-- The function `tsctime::TscDifferenceMs` of `Time.hpp`. -/
  TscDifferenceMs : Nat → Nat → Nat
  /-- The indeterminate value of the uninitialised local `start_time`. -/
  start_time_init : Nat

/-- The method `Benchmark::fetch_object_size`: the content length, or the exception. -/
def fetch_object_size (env : Env) : Except Exception Nat :=
  match env.head_object with
  | none => .error (.runtime_error "Could not fetch object head.")
  | some len => .ok (len % SIZE_MOD)

/-- The spawn loop creates its next thread (the main thread's step).  Once every
thread is created the main thread waits in `join`. -/
def Machine.spawn_next (m : Machine) : Machine :=
  match m.to_spawn with
  | [] => m
  | th :: rest =>
    { m with to_spawn := rest, threads := m.threads ++ [th], trace := m.trace ++ [.spawn th.t_id] }

/-- The `j`-th spawned worker performs its next step.  `none`: the step indexes
`requests` or `results` out of range (undefined). -/
def Machine.worker_step (env : Env) (requests : List S3Op) (m : Machine) (j : Nat) :
    Option Machine :=
  match m.threads.get? j with
  | none => some m
  | some th =>
    match th.code with
    | [] => some m
    | .spin :: rest =>
      if m.do_start then
        some { m with threads := m.threads.set j { th with code := rest },
                      trace := m.trace ++ [.pass_barrier th.t_id] }
      else some m
    | .release :: rest =>
      some { m with threads := m.threads.set j { th with code := rest },
                    do_start := true, trace := m.trace ++ [.release th.t_id] }
    | .capture_start :: rest =>
      some { m with threads := m.threads.set j { th with code := rest },
                    start_time := m.tsc, tsc := m.tsc + 1,
                    trace := m.trace ++ [.capture_start th.t_id m.tsc] }
    | .read_start :: rest =>
      some { m with threads := m.threads.set j { th with code := rest, start := m.tsc },
                    tsc := m.tsc + 1, trace := m.trace ++ [.read_start th.t_id m.tsc] }
    | .invoke k :: rest =>
      match requests.get? k with
      | none => none
      | some op =>
        some { m with threads := m.threads.set j { th with code := rest },
                      trace := m.trace ++ [.invoke th.t_id k op] }
    | .read_end :: rest =>
      some { m with threads := m.threads.set j { th with code := rest, end_ := m.tsc },
                    tsc := m.tsc + 1, trace := m.trace ++ [.read_end th.t_id m.tsc] }
    | .store k :: rest =>
      if k < m.results.length then
        some { m with threads := m.threads.set j { th with code := rest },
                      results := m.results.set k (env.TscDifferenceUs th.start th.end_),
                      trace := m.trace ++ [.store th.t_id k (env.TscDifferenceUs th.start th.end_)] }
      else none

/-- One step of an execution: `none` schedules the main thread, `some j` the
`j`-th spawned worker. -/
def Machine.step (env : Env) (requests : List S3Op) (m : Machine) : Option Nat → Option Machine
  | none => some m.spawn_next
  | some j => m.worker_step env requests j

/-- An execution: the steps of a schedule, one after the other. -/
def Machine.run (env : Env) (requests : List S3Op) : Machine → List (Option Nat) → Option Machine
  | m, [] => some m
  | m, a :: sched =>
    match m.step env requests a with
    | none => none
    | some m1 => Machine.run env requests m1 sched

/-- Every thread is created and has run to its end: `join` returns for each. -/
def Machine.joined (m : Machine) : Bool :=
  m.to_spawn.isEmpty && m.threads.all (fun th => th.code.isEmpty)

/-- The programs of the threads of a run, in spawn order. -/
def spawn_threads (params : RunParameters) (fuel : Nat) : Option (List Thread) :=
  match spawn_loop params.thread_count fuel 0 with
  | none => none
  | some ids =>
    ids.mapM (fun t_id =>
      match worker params fuel t_id with
      | none => none
      | some code => some { t_id := t_id, code := code, start := 0, end_ := 0 })

/-- The buffer `std::vector<latency_t> results(params.sample_count * params.thread_count)`. -/
def results_buffer (params : RunParameters) : List Nat :=
  List.replicate ((params.sample_count * params.thread_count) % SIZE_MOD) 0

/-- What a call of `do_run` leaves behind: the returned `RunResults` or the
exception thrown, the random source, and what the threads did. -/
structure RunOutcome where
  result : Except Exception RunResults
  rng : RandomSource
  trace : List Event

/-- The method `Benchmark::do_run(params)` under the schedule `sched` of its threads.
The allocations of `outbuf`, `results` and `requests` are taken to succeed.
`none`: a loop ran out of fuel, a step was undefined, or the schedule ends
before every thread is joined. -/
def do_run (cfg : Config) (env : Env) (fuel : Nat) (sched : List (Option Nat))
    (g : RandomSource) (params : RunParameters) : Option RunOutcome :=
  match fetch_object_size env with
  | .error e => some { result := .error e, rng := g, trace := [] }
  | .ok max_obj_size =>
    let results := results_buffer params
    match build_plan cfg params max_obj_size fuel 0 [] g with
    | none => none
    | some (.error e, g1) => some { result := .error e, rng := g1, trace := [] }
    | some (.ok requests, g1) =>
      match spawn_threads params fuel with
      | none => none
      | some ths =>
        let m0 : Machine :=
          { to_spawn := ths, threads := [], do_start := false,
            start_time := env.start_time_init, tsc := 0, results := results, trace := [] }
        match Machine.run env requests m0 sched with
        | none => none
        | some m =>
          if m.joined then
            some { result := .ok { latencies := m.results,
                                   total_duration_ms := env.TscDifferenceMs m.start_time m.tsc },
                   rng := g1, trace := m.trace }
          else none

/-! ## `Benchmark::run_full_benchmark` -/

/-- A call that `run_full_benchmark` makes: one of the logger's four methods or
`do_run`.  The call `print_run_stats` carries the pair `RunStats(params, results)`
is built from. -/
inductive Call where
  | print_run_params (params : RunParameters)
  | print_run_header
  | do_run (params : RunParameters)
  | print_run_stats (params : RunParameters) (results : RunResults)
  | print_run_footer
  deriving DecidableEq, Repr

/-- The state of the sweep: the local `params`, the state of the world that
`do_run` acts on, the calls made so far, and the exception that ended it. -/
structure Sweep (σ : Type) where
  params : RunParameters
  world : σ
  calls : List Call
  thrown : Option Exception

/-- The inner loop of the sweep,
`for (size_t thread_count = config.threads_min; thread_count <= config.threads_max; thread_count *= 2)`,
from `thread_count` on.  `doRun` is the behaviour of `do_run` on the world;
`none` when the fuel runs out. -/
def thread_loop {σ : Type} (cfg : Config)
    (doRun : σ → RunParameters → Except Exception RunResults × σ) :
    Nat → Nat → Sweep σ → Option (Sweep σ)
  | 0, _, _ => none
  | fuel + 1, thread_count, s =>
    if thread_count ≤ cfg.threads_max then
      let params : RunParameters := { s.params with thread_count := thread_count }
      match doRun s.world params with
      | (.error e, w) =>
        some { params := params, world := w, calls := s.calls ++ [.do_run params],
               thrown := some e }
      | (.ok results, w) =>
        thread_loop cfg doRun fuel (thread_count * 2 % SIZE_MOD)
          { params := params, world := w,
            calls := s.calls ++ [.do_run params, .print_run_stats params results],
            thrown := none }
    else some s

/-- The outer loop of the sweep,
`for (size_t payload_size = config.payloads_min; payload_size <= config.payloads_max; payload_size *= 2)`,
from `payload_size` on; every inner loop gets `inner` fuel.  `none` when the
fuel of either loop runs out. -/
def payload_loop {σ : Type} (cfg : Config)
    (doRun : σ → RunParameters → Except Exception RunResults × σ) (inner : Nat) :
    Nat → Nat → Sweep σ → Option (Sweep σ)
  | 0, _, _ => none
  | fuel + 1, payload_size, s =>
    if payload_size ≤ cfg.payloads_max then
      let params : RunParameters := { s.params with payload_size := payload_size }
      match thread_loop cfg doRun inner cfg.threads_min
          { s with params := params,
                   calls := s.calls ++ [.print_run_params params, .print_run_header] } with
      | none => none
      | some s1 =>
        match s1.thrown with
        | some _ => some s1
        | none =>
          payload_loop cfg doRun inner fuel (payload_size * 2 % SIZE_MOD)
            { s1 with calls := s1.calls ++ [.print_run_footer] }
    else some s

/-- The method `Benchmark::run_full_benchmark(logger)`: the sweep from
`RunParameters{ config.samples, 1, 0 }`, each loop on `fuel`. -/
def run_full_benchmark {σ : Type} (cfg : Config)
    (doRun : σ → RunParameters → Except Exception RunResults × σ) (fuel : Nat) (w : σ) :
    Option (Sweep σ) :=
  payload_loop cfg doRun fuel fuel cfg.payloads_min
    { params := { sample_count := cfg.samples, thread_count := 1, payload_size := 0 },
      world := w, calls := [], thrown := none }

/-- A call without the results it carries: which method, on which parameters. -/
inductive Site where
  | print_run_params (params : RunParameters)
  | print_run_header
  | do_run (params : RunParameters)
  | print_run_stats (params : RunParameters)
  | print_run_footer
  deriving DecidableEq, Repr

/-- The site of a call. -/
def Call.site : Call → Site
  | .print_run_params p => .print_run_params p
  | .print_run_header => .print_run_header
  | .do_run p => .do_run p
  | .print_run_stats p _ => .print_run_stats p
  | .print_run_footer => .print_run_footer

/-- The number of `do_run` calls. -/
def count_do_run : List Site → Nat
  | [] => 0
  | .do_run _ :: cs => count_do_run cs + 1
  | _ :: cs => count_do_run cs

/-- The doubling sequence `lo, 2 * lo, ..., lo * 2 ^ (n - 1)`. -/
def doubling (lo n : Nat) : List Nat := (List.range n).map (fun k => lo * 2 ^ k)

/-- The calls of the runs of one payload size: for each thread count in order,
`do_run` and right after it `print_run_stats`, both on that run's parameters. -/
def run_sites (samples payload : Nat) (threads : List Nat) : List Site :=
  threads.flatMap (fun t => [.do_run ⟨samples, t, payload⟩, .print_run_stats ⟨samples, t, payload⟩])

/-- The calls of one payload size: `print_run_params` on the payload size and the
thread count `stale` left in `params`, the header, the runs, the footer. -/
def group_sites (samples stale payload : Nat) (threads : List Nat) : List Site :=
  [.print_run_params ⟨samples, stale, payload⟩, .print_run_header] ++
    run_sites samples payload threads ++ [.print_run_footer]

/-- The thread count left in `params` after the runs of one payload size. -/
def stale_after (stale : Nat) (threads : List Nat) : Nat :=
  threads.getLast?.getD stale

/-- The calls of a sweep over `payloads` and, for each, over `threads`, when
`params.thread_count` is `stale` at its start. -/
def sweep_sites (samples : Nat) (threads : List Nat) : Nat → List Nat → List Site
  | _, [] => []
  | stale, payload :: payloads =>
    group_sites samples stale payload threads ++
      sweep_sites samples threads (stale_after stale threads) payloads

/-- A world without state, and a `do_run` on it that always returns empty results. -/
def quiet_run (w : Unit) (_ : RunParameters) : Except Exception RunResults × Unit :=
  (.ok { latencies := [], total_duration_ms := 0 }, w)

/-! ## Reading a decimal rendering back -/

/-- The number that a string of decimal digits renders. -/
def digits_value (cs : List Char) : Nat :=
  cs.foldl (fun a c => 10 * a + (c.toNat - 48)) 0

/-! ## Concrete inputs -/

/-- A PUT benchmark on bucket `b` with base key `obj`: 5 samples, payloads
1024 to 4096, 1 to 4 threads. -/
def put_config : Config :=
  { bucket_name := "b", object_name := "obj", fetch_benchmark := false, samples := 5,
    payloads_min := 1024, payloads_max := 4096, threads_min := 1, threads_max := 4 }

/-- A sweep whose payload maximum is `2 ^ 63`, from a payload minimum of 3, on
one thread. -/
def wide_config : Config :=
  { put_config with payloads_min := 3, payloads_max := 2 ^ 63, threads_min := 1, threads_max := 1 }

/-- A target object of 4096 bytes, a clock whose differences are plain
subtraction, and `start_time` starting at 0. -/
def plain_env : Env :=
  { head_object := some 4096, TscDifferenceUs := fun a b => b - a,
    TscDifferenceMs := fun a b => b - a, start_time_init := 0 }

/-- A schedule for two threads with one sample each: both are spawned, the
last one releases the barrier, the first one passes it and reads the clock for
its first operation, and only then the last one captures `start_time`. -/
def early_reader : List (Option Nat) :=
  [none, none, some 1, some 0, some 0, some 1, some 0, some 0, some 0,
   some 1, some 1, some 1, some 1]

/-- A random source that always answers with the lower bound of the request. -/
def low_source : RandomSource := { pick := fun _ lo _ => lo, requests := [] }

/-- A random source that always answers with the upper bound of the request. -/
def high_source : RandomSource := { pick := fun _ _ hi => hi, requests := [] }

/-! # Theorems -/

/-! ## `random_range_in` -/

theorem low_source_inRange : low_source.InRange := by
  intro n lo hi h
  exact ⟨le_refl _, h⟩

theorem high_source_inRange : high_source.InRange := by
  intro n lo hi h
  exact ⟨h, le_refl _⟩

/-- The successful branch of `random_range_in`, with the arithmetic of `size_t` resolved. -/
theorem random_range_in_of_le (g : RandomSource) (size max_value : Nat)
    (hle : size ≤ max_value) (hmax : max_value < SIZE_MOD) (hg : g.InRange) :
    random_range_in g size max_value =
        (.ok { offset := g.pick g.requests.length 0 (max_value - size),
               end_ := g.pick g.requests.length 0 (max_value - size) + size },
         { g with requests := g.requests ++ [(0, max_value - size)] }) ∧
      g.pick g.requests.length 0 (max_value - size) + size ≤ max_value := by
  have hsub : (max_value - size) % SIZE_MOD = max_value - size :=
    Nat.mod_eq_of_lt (lt_of_le_of_lt (Nat.sub_le _ _) hmax)
  have hpick := (hg g.requests.length 0 (max_value - size) (Nat.zero_le _)).2
  have hsum : g.pick g.requests.length 0 (max_value - size) + size ≤ max_value := by omega
  have hmod : (g.pick g.requests.length 0 (max_value - size) + size) % SIZE_MOD =
      g.pick g.requests.length 0 (max_value - size) + size :=
    Nat.mod_eq_of_lt (lt_of_le_of_lt hsum hmax)
  refine ⟨?_, hsum⟩
  unfold random_range_in
  rw [if_neg (Nat.not_lt.mpr hle)]
  simp only [random.in_range, hsub, hmod]

/-- C1: for `size <= max_value` (both `size_t`) and a random source that answers
inside the requested interval, `random_range_in(size, max_value)` returns a
range `{offset, end}` with `0 <= offset`, `end = offset + size` as natural
numbers (the unsigned addition does not wrap) and `end <= max_value`; the
offset was requested from `[0, max_value - size]`. -/
theorem random_range_in_returns_range (g : RandomSource) (size max_value : Nat)
    (hle : size ≤ max_value) (hmax : max_value < SIZE_MOD) (hg : g.InRange) :
    ∃ offset : Nat,
      (random_range_in g size max_value).1 = .ok { offset := offset, end_ := offset + size } ∧
      (random_range_in g size max_value).2.requests = g.requests ++ [(0, max_value - size)] ∧
      0 ≤ offset ∧ offset ≤ max_value - size ∧ offset + size ≤ max_value ∧
      offset + size < SIZE_MOD := by
  obtain ⟨heq, hsum⟩ := random_range_in_of_le g size max_value hle hmax hg
  refine ⟨g.pick g.requests.length 0 (max_value - size), ?_, ?_, Nat.zero_le _, ?_, hsum, ?_⟩
  · rw [heq]
  · rw [heq]
  · omega
  · omega

/-- Witness of C1: a 100-byte range in a 4096-byte object, offset drawn at the
upper end of the request. -/
theorem random_range_in_returns_range_witness :
    ∃ offset : Nat,
      (random_range_in high_source 100 4096).1 = .ok { offset := offset, end_ := offset + 100 } ∧
      (random_range_in high_source 100 4096).2.requests = high_source.requests ++ [(0, 4096 - 100)] ∧
      0 ≤ offset ∧ offset ≤ 4096 - 100 ∧ offset + 100 ≤ 4096 ∧ offset + 100 < SIZE_MOD :=
  random_range_in_returns_range high_source 100 4096 (by decide) (by decide) high_source_inRange

/-- C2: `random_range_in(size, max_value)` throws if and only if
`size > max_value`; when it throws, the exception is the `std::runtime_error`
of the range check, no range is produced, and the random source is exactly as
before the call: nothing was requested from it. -/
theorem random_range_in_throws_iff (g : RandomSource) (size max_value : Nat) :
    ((∃ e, (random_range_in g size max_value).1 = .error e) ↔ size > max_value) ∧
    ((∃ e, (random_range_in g size max_value).1 = .error e) →
      random_range_in g size max_value = (.error range_error, g)) := by
  by_cases h : size > max_value
  · have heq : random_range_in g size max_value = (.error range_error, g) := by
      unfold random_range_in
      rw [if_pos h]
    exact ⟨⟨fun _ => h, fun _ => ⟨range_error, by rw [heq]⟩⟩, fun _ => heq⟩
  · have hno : ¬ ∃ e, (random_range_in g size max_value).1 = .error e := by
      rintro ⟨e, he⟩
      unfold random_range_in at he
      rw [if_neg h] at he
      cases he
    exact ⟨⟨fun hex => absurd hex hno, fun hgt => absurd hgt h⟩, fun hex => absurd hex hno⟩

/-- Witness of C2: a 4097-byte range in a 4096-byte object throws and leaves the
random source alone. -/
theorem random_range_in_throws_iff_witness :
    random_range_in low_source 4097 4096 = (.error range_error, low_source) :=
  (random_range_in_throws_iff low_source 4097 4096).2
    ((random_range_in_throws_iff low_source 4097 4096).1.mpr (by decide))

/-- Counterexample to C8: for `size = 0` the returned range is empty,
`offset = end`, so `offset < end` fails. -/
theorem random_range_in_empty_range :
    low_source.InRange ∧ 0 ≤ 4096 ∧
      ∃ r : ByteRange, (random_range_in low_source 0 4096).1 = .ok r ∧ ¬ (r.offset < r.end_) := by
  refine ⟨low_source_inRange, by decide, { offset := 0, end_ := 0 }, ?_, by decide⟩
  simp [random_range_in, random.in_range, low_source, SIZE_MOD]

/-- C8 as amended: every range that `random_range_in(size, max_value)` returns
(`size <= max_value`, random source answering inside the requested interval)
has `offset <= end`, strictly `offset < end` when `size >= 1`,
`end - offset = size` and `end <= max_value`. -/
theorem random_range_in_invariant (g : RandomSource) (size max_value : Nat) (r : ByteRange)
    (hle : size ≤ max_value) (hmax : max_value < SIZE_MOD) (hg : g.InRange)
    (hr : (random_range_in g size max_value).1 = .ok r) :
    r.offset ≤ r.end_ ∧ (1 ≤ size → r.offset < r.end_) ∧ r.end_ - r.offset = size ∧
      r.end_ ≤ max_value := by
  obtain ⟨heq, hsum⟩ := random_range_in_of_le g size max_value hle hmax hg
  rw [heq] at hr
  simp only [Except.ok.injEq] at hr
  subst hr
  simp only
  refine ⟨by omega, fun h => by omega, by omega, hsum⟩

/-- Witness of C8 as amended: a 100-byte range in a 4096-byte object. -/
theorem random_range_in_invariant_witness :
    (3996 : Nat) ≤ 4096 ∧ (1 ≤ 100 → (3996 : Nat) < 4096) ∧ 4096 - 3996 = 100 ∧
      (4096 : Nat) ≤ 4096 :=
  random_range_in_invariant high_source 100 4096 { offset := 3996, end_ := 4096 }
    (by decide) (by decide) high_source_inRange
    (by simp [random_range_in, random.in_range, high_source, SIZE_MOD])

/-! ## The decimal rendering is injective -/

theorem digitChar_value (k : Nat) (hk : k < 10) : (Nat.digitChar k).toNat - 48 = k := by
  interval_cases k <;> rfl

theorem foldl_toDigitsCore (fuel : Nat) : ∀ (n : Nat) (ds : List Char), n < fuel →
    (Nat.toDigitsCore 10 fuel n ds).foldl (fun a c => 10 * a + (c.toNat - 48)) 0 =
      ds.foldl (fun a c => 10 * a + (c.toNat - 48)) n := by
  induction fuel with
  | zero => intro n ds h; omega
  | succ fuel ih =>
    intro n ds h
    have hd := digitChar_value (n % 10) (Nat.mod_lt _ (by decide))
    rw [Nat.toDigitsCore]
    by_cases h0 : n / 10 = 0
    · simp only [h0, if_true, List.foldl_cons, hd]
      congr 1
      omega
    · simp only [h0, if_false]
      rw [ih (n / 10) _ (by omega)]
      simp only [List.foldl_cons, hd]
      congr 1
      omega

theorem digits_value_repr (n : Nat) : digits_value (Nat.repr n).data = n := by
  simp only [digits_value, Nat.repr, Nat.toDigits, List.asString]
  rw [foldl_toDigitsCore (n + 1) n [] (Nat.lt_succ_self n)]
  rfl

theorem to_string_injective (i j : Nat) (h : to_string i = to_string j) : i = j := by
  have h1 := digits_value_repr i
  have h2 := digits_value_repr j
  unfold to_string at h
  rw [h, h2] at h1
  exact h1.symm

theorem object_key_injective (cfg : Config) (i j : Nat)
    (h : object_key cfg i = object_key cfg j) : i = j := by
  apply to_string_injective
  have hd := congrArg String.data h
  simp only [object_key, String.data_append] at hd
  exact String.ext (List.append_cancel_left hd)

/-! ## The request plan -/

/-- The PUT plan loop from counter `i` on: it appends the requests `i, ..., n - 1`. -/
theorem build_plan_put (cfg : Config) (params : RunParameters) (max_obj_size : Nat)
    (g : RandomSource) (hput : cfg.fetch_benchmark = false)
    (hn : params.sample_count * params.thread_count ≤ INT_MAX) :
    ∀ (fuel i : Nat) (requests : List S3Op),
      i ≤ params.sample_count * params.thread_count →
      params.sample_count * params.thread_count - i < fuel →
      build_plan cfg params max_obj_size fuel i requests g =
        some (.ok (requests ++ (List.range' i (params.sample_count * params.thread_count - i)).map
          (fun k => S3Op.PutObject cfg.bucket_name (object_key cfg k) params.payload_size)), g) := by
  have hmod : (params.sample_count * params.thread_count) % SIZE_MOD =
      params.sample_count * params.thread_count := by
    apply Nat.mod_eq_of_lt
    have : INT_MAX < SIZE_MOD := by decide
    omega
  intro fuel
  induction fuel with
  | zero => intro i requests _ h; omega
  | succ fuel ih =>
    intro i requests hi hfuel
    rw [build_plan, hmod]
    by_cases hlt : i < params.sample_count * params.thread_count
    · have hint : ¬ (i + 1 > INT_MAX) := by omega
      rw [if_pos hlt, hput]
      simp only [Bool.false_eq_true, if_false, hint]
      rw [ih (i + 1) _ (by omega) (by omega)]
      have hlen : params.sample_count * params.thread_count - i =
          (params.sample_count * params.thread_count - (i + 1)) + 1 := by omega
      rw [hlen, List.range'_succ]
      simp [List.append_assoc]
    · rw [if_neg hlt]
      have hz : params.sample_count * params.thread_count - i = 0 := by omega
      simp [hz]

/-- C7: in PUT mode, with `S * T` operations inside the range of the `int`
counter, the plan loop of `do_run` returns the `S * T` PUT requests whose keys
are `object_name` followed by the decimal rendering of `i`, for `i` in
`[0, S * T)`, and these keys are pairwise distinct. -/
theorem put_keys_distinct (cfg : Config) (params : RunParameters) (max_obj_size fuel : Nat)
    (g : RandomSource) (hput : cfg.fetch_benchmark = false)
    (hn : params.sample_count * params.thread_count ≤ INT_MAX)
    (hfuel : params.sample_count * params.thread_count < fuel) :
    build_plan cfg params max_obj_size fuel 0 [] g =
        some (.ok ((List.range (params.sample_count * params.thread_count)).map
          (fun i => S3Op.PutObject cfg.bucket_name (cfg.object_name ++ to_string i)
            params.payload_size)), g) ∧
      ∀ i j, i < params.sample_count * params.thread_count →
        j < params.sample_count * params.thread_count → i ≠ j →
        cfg.object_name ++ to_string i ≠ cfg.object_name ++ to_string j := by
  refine ⟨?_, fun i j _ _ hij h => hij (object_key_injective cfg i j h)⟩
  rw [build_plan_put cfg params max_obj_size g hput hn fuel 0 [] (Nat.zero_le _) (by omega)]
  simp [List.range_eq_range', object_key]

/-- Witness of C7: 3 samples on 2 threads give the six keys `obj0` to `obj5`. -/
theorem put_keys_distinct_witness :
    build_plan put_config ⟨3, 2, 1024⟩ 4096 7 0 [] low_source =
        some (.ok ((List.range (3 * 2)).map
          (fun i => S3Op.PutObject "b" ("obj" ++ to_string i) 1024)), low_source) ∧
      ∀ i j, i < 3 * 2 → j < 3 * 2 → i ≠ j → "obj" ++ to_string i ≠ "obj" ++ to_string j :=
  put_keys_distinct put_config ⟨3, 2, 1024⟩ 4096 7 low_source rfl (by decide) (by decide)

/-! ## `do_run`: a payload larger than the object -/

/-- C5 fails on the code: the last thread sets `do_start` before it reads the
clock into `start_time`.  With two threads and one sample each, under the
schedule `early_reader`, thread 0 leaves the barrier and makes the first clock
read of its first timed operation (cycle 0) before thread 1 captures
`start_time` (cycle 1); the run still returns its two latencies. -/
theorem start_time_captured_after_first_timed_read :
    (do_run put_config plain_env 4 early_reader low_source ⟨1, 2, 1024⟩).map
        (fun out => (out.result, out.trace)) =
      some (.ok { latencies := [2, 1], total_duration_ms := 4 },
        [.spawn 0, .spawn 1, .release 1, .pass_barrier 0,
         .read_start 0 0,
         .capture_start 1 1,
         .invoke 0 0 (.PutObject "b" "obj0" 1024), .read_end 0 2, .store 0 0 2,
         .read_start 1 3, .invoke 1 1 (.PutObject "b" "obj1" 1024), .read_end 1 4,
         .store 1 1 1]) := by
  rfl

/-! ## The sweep: doubling sequences -/

theorem doubling_succ (lo n : Nat) : doubling lo (n + 1) = lo :: doubling (lo * 2) n := by
  simp only [doubling, List.range_succ_eq_map, List.map_cons, List.map_map, pow_zero, Nat.mul_one]
  congr 1
  apply List.map_congr_left
  intro k _
  simp only [Function.comp, pow_succ]
  ring

theorem stale_after_cons (stale x : Nat) (l : List Nat) :
    stale_after stale (x :: l) = stale_after x l := by
  cases l with
  | nil => simp [stale_after]
  | cons y l =>
    simp only [stale_after, List.getLast?_cons_cons]
    rw [List.getLast?_eq_getLast _ (List.cons_ne_nil y l)]
    rfl

theorem le_mul_two_pow (x k : Nat) : x ≤ x * 2 ^ k :=
  Nat.le_mul_of_pos_right x (Nat.two_pow_pos k)

/-- The number of terms of a doubling sequence below a bound: it exists for
every positive start. -/
theorem cutoff_exists (lo hi : Nat) (hlo : 1 ≤ lo) : ∃ n, ∀ k, k < n ↔ lo * 2 ^ k ≤ hi := by
  have hex : ∃ k, hi < lo * 2 ^ k :=
    ⟨hi, lt_of_lt_of_le (Nat.lt_two_pow hi) (Nat.le_mul_of_pos_left _ hlo)⟩
  refine ⟨Nat.find hex, fun k => ⟨fun hk => ?_, fun hk => ?_⟩⟩
  · exact Nat.not_lt.mp (Nat.find_min hex hk)
  · by_contra hge
    have hspec := Nat.find_spec hex
    have hmono : lo * 2 ^ Nat.find hex ≤ lo * 2 ^ k :=
      Nat.mul_le_mul_left lo (Nat.pow_le_pow_right (by decide) (Nat.not_lt.mp hge))
    omega

/-- The cutoff of a sequence that does not start below the bound is 0. -/
theorem cutoff_zero (x hi n : Nat) (hn : ∀ k, k < n ↔ x * 2 ^ k ≤ hi) (hx : ¬ x ≤ hi) : n = 0 := by
  rcases Nat.eq_zero_or_pos n with h | h
  · exact h
  · exact absurd (by simpa using (hn 0).mp h) hx

/-- The cutoff of a sequence that starts below the bound is one more than the
cutoff of the sequence from the doubled start. -/
theorem cutoff_succ (x hi n : Nat) (hn : ∀ k, k < n ↔ x * 2 ^ k ≤ hi) (hx : x ≤ hi) :
    ∃ n', n = n' + 1 ∧ ∀ k, k < n' ↔ x * 2 * 2 ^ k ≤ hi := by
  have hpos : 0 < n := (hn 0).mpr (by simpa using hx)
  refine ⟨n - 1, by omega, fun k => ?_⟩
  have h := hn (k + 1)
  have he : x * 2 ^ (k + 1) = x * 2 * 2 ^ k := by rw [pow_succ]; ring
  rw [he] at h
  rw [← h]
  omega

/-! ## The sweep: the two loops -/

/-- The inner loop, when `do_run` always returns: it comes to an end, and its
calls are those of the doubling sequence of thread counts. -/
theorem thread_loop_spec {σ : Type} (cfg : Config)
    (doRun : σ → RunParameters → Except Exception RunResults × σ)
    (hok : ∀ w p, ∃ r w1, doRun w p = (.ok r, w1))
    (hmax : cfg.threads_max < 2 ^ 63) :
    ∀ (k x m : Nat) (s : Sweep σ), 2 ^ 63 ≤ x * 2 ^ k → s.thrown = none →
      (∀ b, b < m ↔ x * 2 ^ b ≤ cfg.threads_max) →
      ∃ s1, thread_loop cfg doRun (k + 1) x s = some s1 ∧ s1.thrown = none ∧
        s1.calls.map Call.site = s.calls.map Call.site ++
          run_sites s.params.sample_count s.params.payload_size (doubling x m) ∧
        s1.params = { s.params with thread_count := stale_after s.params.thread_count (doubling x m) } := by
  intro k
  induction k with
  | zero =>
    intro x m s hk hthrown hm
    have hx : ¬ x ≤ cfg.threads_max := by simp at hk; omega
    have hm0 := cutoff_zero x _ m hm hx
    subst hm0
    refine ⟨s, ?_, hthrown, ?_, ?_⟩
    · rw [thread_loop, if_neg hx]
    · simp [doubling, run_sites]
    · simp [doubling, stale_after]
  | succ k ih =>
    intro x m s hk hthrown hm
    by_cases hx : x ≤ cfg.threads_max
    · obtain ⟨m1, rfl, hm1⟩ := cutoff_succ x _ m hm hx
      obtain ⟨r, w1, hrun⟩ := hok s.world { s.params with thread_count := x }
      have hmod : x * 2 % SIZE_MOD = x * 2 := by
        apply Nat.mod_eq_of_lt
        have : SIZE_MOD = 2 ^ 63 * 2 := by decide
        omega
      have hk1 : 2 ^ 63 ≤ x * 2 * 2 ^ k := by
        have he : x * 2 ^ (k + 1) = x * 2 * 2 ^ k := by rw [pow_succ]; ring
        omega
      obtain ⟨s1, hs1, hthrown1, hcalls1, hparams1⟩ :=
        ih (x * 2) m1
          { params := { s.params with thread_count := x }, world := w1,
            calls := s.calls ++ [.do_run { s.params with thread_count := x },
              .print_run_stats { s.params with thread_count := x } r],
            thrown := none } hk1 rfl hm1
      refine ⟨s1, ?_, hthrown1, ?_, ?_⟩
      · rw [thread_loop, if_pos hx]
        simp only [hrun, hmod]
        exact hs1
      · rw [hcalls1, doubling_succ]
        simp [run_sites, Call.site]
      · rw [hparams1, doubling_succ, stale_after_cons]
    · have hm0 := cutoff_zero x _ m hm hx
      subst hm0
      refine ⟨s, ?_, hthrown, ?_, ?_⟩
      · rw [thread_loop, if_neg hx]
      · simp [doubling, run_sites]
      · simp [doubling, stale_after]

/-- The outer loop, when `do_run` always returns: it comes to an end, and its
calls are those of the sweep over the two doubling sequences. -/
theorem payload_loop_spec {σ : Type} (cfg : Config)
    (doRun : σ → RunParameters → Except Exception RunResults × σ)
    (hok : ∀ w p, ∃ r w1, doRun w p = (.ok r, w1))
    (hpmax : cfg.payloads_max < 2 ^ 63) (htmax : cfg.threads_max < 2 ^ 63)
    (htmin : 1 ≤ cfg.threads_min) (inner m : Nat) (hinner : 64 ≤ inner)
    (hm : ∀ b, b < m ↔ cfg.threads_min * 2 ^ b ≤ cfg.threads_max) :
    ∀ (k x n : Nat) (s : Sweep σ), 2 ^ 63 ≤ x * 2 ^ k → s.thrown = none →
      (∀ a, a < n ↔ x * 2 ^ a ≤ cfg.payloads_max) →
      ∃ s1, payload_loop cfg doRun inner (k + 1) x s = some s1 ∧ s1.thrown = none ∧
        s1.calls.map Call.site = s.calls.map Call.site ++
          sweep_sites s.params.sample_count (doubling cfg.threads_min m) s.params.thread_count
            (doubling x n) := by
  obtain ⟨j, rfl⟩ : ∃ j, inner = j + 1 := ⟨inner - 1, by omega⟩
  have hj : 2 ^ 63 ≤ cfg.threads_min * 2 ^ j := by
    have h1 : 2 ^ 63 ≤ 2 ^ j := Nat.pow_le_pow_right (by decide) (by omega)
    exact le_trans h1 (Nat.le_mul_of_pos_left _ htmin)
  intro k
  induction k with
  | zero =>
    intro x n s hk hthrown hn
    have hx : ¬ x ≤ cfg.payloads_max := by simp at hk; omega
    have hn0 := cutoff_zero x _ n hn hx
    subst hn0
    refine ⟨s, ?_, hthrown, ?_⟩
    · rw [payload_loop, if_neg hx]
    · simp [doubling, sweep_sites]
  | succ k ih =>
    intro x n s hk hthrown hn
    by_cases hx : x ≤ cfg.payloads_max
    · obtain ⟨n1, rfl, hn1⟩ := cutoff_succ x _ n hn hx
      have hmod : x * 2 % SIZE_MOD = x * 2 := by
        apply Nat.mod_eq_of_lt
        have : SIZE_MOD = 2 ^ 63 * 2 := by decide
        omega
      have hk1 : 2 ^ 63 ≤ x * 2 * 2 ^ k := by
        have he : x * 2 ^ (k + 1) = x * 2 * 2 ^ k := by rw [pow_succ]; ring
        omega
      obtain ⟨s1, hs1, hthrown1, hcalls1, hparams1⟩ :=
        thread_loop_spec cfg doRun hok htmax j cfg.threads_min m
          { s with params := { s.params with payload_size := x },
                   calls := s.calls ++ [.print_run_params { s.params with payload_size := x },
                     .print_run_header] } hj hthrown hm
      obtain ⟨s2, hs2, hthrown2, hcalls2⟩ :=
        ih (x * 2) n1 { s1 with calls := s1.calls ++ [.print_run_footer] } hk1 hthrown1 hn1
      refine ⟨s2, ?_, hthrown2, ?_⟩
      · rw [payload_loop, if_pos hx]
        simp only [hs1, hthrown1, hmod]
        rw [hthrown1] at hs2
        exact hs2
      · rw [hcalls2, doubling_succ]
        simp only [List.map_append, hcalls1, hparams1, sweep_sites, group_sites]
        simp [Call.site, List.append_assoc]
    · have hn0 := cutoff_zero x _ n hn hx
      subst hn0
      refine ⟨s, ?_, hthrown, ?_⟩
      · rw [payload_loop, if_neg hx]
      · simp [doubling, sweep_sites]

/-! ## The sweep: counting its calls -/

/-- The whole sweep under the preconditions of the doubling loops, when `do_run`
always returns: it comes to an end without an exception, and its calls are
those of the sweep over the two doubling sequences, starting from
`params.thread_count = 1`. -/
theorem sweep_shape {σ : Type} (cfg : Config)
    (doRun : σ → RunParameters → Except Exception RunResults × σ) (w : σ) (fuel : Nat)
    (hok : ∀ w p, ∃ r w1, doRun w p = (.ok r, w1))
    (hpmin : 1 ≤ cfg.payloads_min) (htmin : 1 ≤ cfg.threads_min)
    (hpmax : cfg.payloads_max < 2 ^ 63) (htmax : cfg.threads_max < 2 ^ 63)
    (hfuel : 64 ≤ fuel) :
    ∃ s n m, run_full_benchmark cfg doRun fuel w = some s ∧ s.thrown = none ∧
      (∀ a, a < n ↔ cfg.payloads_min * 2 ^ a ≤ cfg.payloads_max) ∧
      (∀ b, b < m ↔ cfg.threads_min * 2 ^ b ≤ cfg.threads_max) ∧
      s.calls.map Call.site =
        sweep_sites cfg.samples (doubling cfg.threads_min m) 1 (doubling cfg.payloads_min n) := by
  obtain ⟨n, hn⟩ := cutoff_exists cfg.payloads_min cfg.payloads_max hpmin
  obtain ⟨m, hm⟩ := cutoff_exists cfg.threads_min cfg.threads_max htmin
  obtain ⟨k, rfl⟩ : ∃ k, fuel = k + 1 := ⟨fuel - 1, by omega⟩
  have hk : 2 ^ 63 ≤ cfg.payloads_min * 2 ^ k := by
    have h1 : 2 ^ 63 ≤ 2 ^ k := Nat.pow_le_pow_right (by decide) (by omega)
    exact le_trans h1 (Nat.le_mul_of_pos_left _ hpmin)
  obtain ⟨s, hs, hthrown, hcalls⟩ :=
    payload_loop_spec cfg doRun hok hpmax htmax htmin (k + 1) m hfuel hm k cfg.payloads_min n
      { params := { sample_count := cfg.samples, thread_count := 1, payload_size := 0 },
        world := w, calls := [], thrown := none } hk rfl hn
  exact ⟨s, n, m, hs, hthrown, hn, hm, by simpa using hcalls⟩

/-! ## The sweep: which runs, in which order -/

/-- The inner loop passes on the absence of an exception when `do_run` always returns. -/
theorem thread_loop_thrown {σ : Type} (cfg : Config)
    (doRun : σ → RunParameters → Except Exception RunResults × σ)
    (hok : ∀ w p, ∃ r w1, doRun w p = (.ok r, w1)) :
    ∀ (fuel x : Nat) (s s1 : Sweep σ), thread_loop cfg doRun fuel x s = some s1 →
      s.thrown = none → s1.thrown = none := by
  intro fuel
  induction fuel with
  | zero => intro x s s1 h; simp [thread_loop] at h
  | succ fuel ih =>
    intro x s s1 h hthrown
    rw [thread_loop] at h
    by_cases hx : x ≤ cfg.threads_max
    · obtain ⟨r, w1, hrun⟩ := hok s.world { s.params with thread_count := x }
      rw [if_pos hx] at h
      simp only [hrun] at h
      exact ih _ _ _ h rfl
    · rw [if_neg hx] at h
      simp only [Option.some.injEq] at h
      rw [← h]
      exact hthrown

/-- An inner loop whose variable is below the maximum and whose next value never
lets the loop end does not end. -/
theorem thread_loop_step {σ : Type} (cfg : Config)
    (doRun : σ → RunParameters → Except Exception RunResults × σ)
    (hok : ∀ w p, ∃ r w1, doRun w p = (.ok r, w1)) (x : Nat) (hx : x ≤ cfg.threads_max)
    (hnext : ∀ fuel s, thread_loop cfg doRun fuel (x * 2 % SIZE_MOD) s = none) :
    ∀ fuel s, thread_loop cfg doRun fuel x s = none := by
  intro fuel s
  cases fuel with
  | zero => rfl
  | succ fuel =>
    obtain ⟨r, w1, hrun⟩ := hok s.world { s.params with thread_count := x }
    rw [thread_loop, if_pos hx]
    simp only [hrun]
    exact hnext _ _

/-- An inner loop that starts at 0 does not end: `0 * 2 = 0`. -/
theorem thread_loop_zero {σ : Type} (cfg : Config)
    (doRun : σ → RunParameters → Except Exception RunResults × σ)
    (hok : ∀ w p, ∃ r w1, doRun w p = (.ok r, w1)) :
    ∀ fuel s, thread_loop cfg doRun fuel 0 s = none := by
  intro fuel
  induction fuel with
  | zero => intro s; rfl
  | succ fuel ih =>
    intro s
    obtain ⟨r, w1, hrun⟩ := hok s.world { s.params with thread_count := 0 }
    rw [thread_loop, if_pos (Nat.zero_le _)]
    simp only [hrun]
    exact ih _

/-- An inner loop that starts at a power of two does not end when the maximum is
`2 ^ 63` or more: the variable reaches `2 ^ 63` and then wraps to 0. -/
theorem thread_loop_pow {σ : Type} (cfg : Config)
    (doRun : σ → RunParameters → Except Exception RunResults × σ)
    (hok : ∀ w p, ∃ r w1, doRun w p = (.ok r, w1)) (hmax : 2 ^ 63 ≤ cfg.threads_max) :
    ∀ d j, j + d = 63 → ∀ fuel s, thread_loop cfg doRun fuel (2 ^ j) s = none := by
  intro d
  induction d with
  | zero =>
    intro j hj
    have hj63 : j = 63 := by omega
    subst hj63
    apply thread_loop_step cfg doRun hok _ hmax
    have hwrap : 2 ^ 63 * 2 % SIZE_MOD = 0 := by decide
    rw [hwrap]
    exact thread_loop_zero cfg doRun hok
  | succ d ih =>
    intro j hj
    have hle : 2 ^ j ≤ cfg.threads_max :=
      le_trans (Nat.pow_le_pow_right (by decide) (by omega)) hmax
    apply thread_loop_step cfg doRun hok _ hle
    have hnext : 2 ^ j * 2 % SIZE_MOD = 2 ^ (j + 1) := by
      rw [← pow_succ]
      apply Nat.mod_eq_of_lt
      have h64 : SIZE_MOD = 2 ^ 64 := rfl
      rw [h64]
      exact Nat.pow_lt_pow_right (by decide) (by omega)
    rw [hnext]
    exact ih (j + 1) (by omega)

/-- An outer loop whose variable is below the maximum and whose next value never
lets the loop end does not end. -/
theorem payload_loop_step {σ : Type} (cfg : Config)
    (doRun : σ → RunParameters → Except Exception RunResults × σ)
    (hok : ∀ w p, ∃ r w1, doRun w p = (.ok r, w1)) (inner x : Nat)
    (hx : x ≤ cfg.payloads_max)
    (hnext : ∀ fuel s, s.thrown = none →
      payload_loop cfg doRun inner fuel (x * 2 % SIZE_MOD) s = none) :
    ∀ fuel s, s.thrown = none → payload_loop cfg doRun inner fuel x s = none := by
  intro fuel s hthrown
  cases fuel with
  | zero => rfl
  | succ fuel =>
    rw [payload_loop, if_pos hx]
    dsimp only
    split
    · rfl
    · rename_i s1 hloop
      have h1 := thread_loop_thrown cfg doRun hok _ _ _ _ hloop hthrown
      simp only [h1]
      exact hnext _ _ rfl

/-- An outer loop that starts at 0 does not end. -/
theorem payload_loop_zero {σ : Type} (cfg : Config)
    (doRun : σ → RunParameters → Except Exception RunResults × σ)
    (hok : ∀ w p, ∃ r w1, doRun w p = (.ok r, w1)) (inner : Nat) :
    ∀ fuel s, s.thrown = none → payload_loop cfg doRun inner fuel 0 s = none := by
  intro fuel
  induction fuel with
  | zero => intro s _; rfl
  | succ fuel ih =>
    intro s hthrown
    rw [payload_loop, if_pos (Nat.zero_le _)]
    dsimp only
    split
    · rfl
    · rename_i s1 hloop
      have h1 := thread_loop_thrown cfg doRun hok _ _ _ _ hloop hthrown
      simp only [h1]
      exact ih _ rfl

/-- An outer loop that starts at a power of two does not end when the maximum is
`2 ^ 63` or more. -/
theorem payload_loop_pow {σ : Type} (cfg : Config)
    (doRun : σ → RunParameters → Except Exception RunResults × σ)
    (hok : ∀ w p, ∃ r w1, doRun w p = (.ok r, w1)) (inner : Nat)
    (hmax : 2 ^ 63 ≤ cfg.payloads_max) :
    ∀ d j, j + d = 63 → ∀ fuel s, s.thrown = none →
      payload_loop cfg doRun inner fuel (2 ^ j) s = none := by
  intro d
  induction d with
  | zero =>
    intro j hj
    have hj63 : j = 63 := by omega
    subst hj63
    apply payload_loop_step cfg doRun hok inner _ hmax
    have hwrap : 2 ^ 63 * 2 % SIZE_MOD = 0 := by decide
    rw [hwrap]
    exact payload_loop_zero cfg doRun hok inner
  | succ d ih =>
    intro j hj
    have hle : 2 ^ j ≤ cfg.payloads_max :=
      le_trans (Nat.pow_le_pow_right (by decide) (by omega)) hmax
    apply payload_loop_step cfg doRun hok inner _ hle
    have hnext : 2 ^ j * 2 % SIZE_MOD = 2 ^ (j + 1) := by
      rw [← pow_succ]
      apply Nat.mod_eq_of_lt
      have h64 : SIZE_MOD = 2 ^ 64 := rfl
      rw [h64]
      exact Nat.pow_lt_pow_right (by decide) (by omega)
    rw [hnext]
    exact ih (j + 1) (by omega)

/-- An outer loop that is entered does not end when its inner loop does not. -/
theorem payload_loop_inner {σ : Type} (cfg : Config)
    (doRun : σ → RunParameters → Except Exception RunResults × σ) (inner x : Nat)
    (hx : x ≤ cfg.payloads_max)
    (hinner : ∀ fuel s, thread_loop cfg doRun fuel cfg.threads_min s = none) :
    ∀ fuel s, payload_loop cfg doRun inner fuel x s = none := by
  intro fuel s
  cases fuel with
  | zero => rfl
  | succ fuel =>
    rw [payload_loop, if_pos hx]
    simp only [hinner]

/-! ## The sweep: termination -/

set_option maxRecDepth 100000 in
/-- Counterexample to C10: a payload maximum of `2 ^ 63` does not by itself keep
the loop variable below the maximum for ever.  From a minimum of 3 the
variable reaches `3 * 2 ^ 62`, which is above `2 ^ 63` and below `2 ^ 64`, and
the sweep ends after its 62 runs. -/
theorem sweep_ends_with_maximum_two_pow_63 :
    2 ^ 63 ≤ wide_config.payloads_max ∧
      (run_full_benchmark wide_config quiet_run 64 ()).map
        (fun s => (s.thrown, count_do_run (s.calls.map Call.site))) = some (none, 62) :=
  ⟨by decide, rfl⟩

/-- C10 as amended, with `size_t` arithmetic modulo `2 ^ 64` and every `do_run`
returning.  The sweep ends (64 units of fuel for each loop are enough) for every
configuration with `payloads_min >= 1`, `threads_min >= 1` and both maxima
below `2 ^ 63`.  None of these preconditions can be dropped: the sweep never
ends when `payloads_min = 0`; when `threads_min = 0` and the outer loop is
entered; when `payloads_max >= 2 ^ 63` and `payloads_min` is a power of two;
when `threads_max >= 2 ^ 63`, `threads_min` is a power of two and the outer
loop is entered. -/
theorem sweep_termination {σ : Type} (cfg : Config)
    (doRun : σ → RunParameters → Except Exception RunResults × σ) (w : σ)
    (hok : ∀ w p, ∃ r w1, doRun w p = (.ok r, w1)) :
    (1 ≤ cfg.payloads_min → 1 ≤ cfg.threads_min → cfg.payloads_max < 2 ^ 63 →
      cfg.threads_max < 2 ^ 63 → ∀ fuel, 64 ≤ fuel →
      ∃ s, run_full_benchmark cfg doRun fuel w = some s ∧ s.thrown = none) ∧
    (cfg.payloads_min = 0 → ∀ fuel, run_full_benchmark cfg doRun fuel w = none) ∧
    (cfg.threads_min = 0 → cfg.payloads_min ≤ cfg.payloads_max →
      ∀ fuel, run_full_benchmark cfg doRun fuel w = none) ∧
    (2 ^ 63 ≤ cfg.payloads_max → (∃ j, j ≤ 63 ∧ cfg.payloads_min = 2 ^ j) →
      ∀ fuel, run_full_benchmark cfg doRun fuel w = none) ∧
    (2 ^ 63 ≤ cfg.threads_max → (∃ j, j ≤ 63 ∧ cfg.threads_min = 2 ^ j) →
      cfg.payloads_min ≤ cfg.payloads_max →
      ∀ fuel, run_full_benchmark cfg doRun fuel w = none) := by
  refine ⟨?_, ?_, ?_, ?_, ?_⟩
  · intro hpmin htmin hpmax htmax fuel hfuel
    obtain ⟨s, _, _, hs, hthrown, _⟩ :=
      sweep_shape cfg doRun w fuel hok hpmin htmin hpmax htmax hfuel
    exact ⟨s, hs, hthrown⟩
  · intro h0 fuel
    unfold run_full_benchmark
    rw [h0]
    exact payload_loop_zero cfg doRun hok fuel fuel _ rfl
  · intro h0 hle fuel
    unfold run_full_benchmark
    apply payload_loop_inner cfg doRun fuel _ hle
    rw [h0]
    exact thread_loop_zero cfg doRun hok
  · rintro hmax ⟨j, hj, hpow⟩ fuel
    unfold run_full_benchmark
    rw [hpow]
    exact payload_loop_pow cfg doRun hok fuel hmax (63 - j) j (by omega) fuel _ rfl
  · rintro hmax ⟨j, hj, hpow⟩ hle fuel
    unfold run_full_benchmark
    apply payload_loop_inner cfg doRun fuel _ hle
    rw [hpow]
    exact thread_loop_pow cfg doRun hok hmax (63 - j) j (by omega)

/-- Witness of C10 as amended: the sweep of `put_config` ends, and the same sweep
with a payload minimum of 1 and a payload maximum of `2 ^ 63` never does. -/
theorem sweep_termination_witness :
    (∃ s, run_full_benchmark put_config quiet_run 64 () = some s ∧ s.thrown = none) ∧
    (∀ fuel, run_full_benchmark
      { put_config with payloads_min := 1, payloads_max := 2 ^ 63 } quiet_run fuel () = none) :=
  ⟨(sweep_termination put_config quiet_run () (fun w _ => ⟨_, w, rfl⟩)).1
      (by decide) (by decide) (by decide) (by decide) 64 (by decide),
   (sweep_termination { put_config with payloads_min := 1, payloads_max := 2 ^ 63 } quiet_run ()
      (fun w _ => ⟨_, w, rfl⟩)).2.2.2.1 (by decide) ⟨0, by decide, by decide⟩⟩

/-! ## `do_run`: every execution writes each index once -/

end s3benchmark
